import Mathlib

/-!
# Verification of the Apple-Watch-Running-Health ingestion/analytics engine

Shallow embedding of the parsing and metrics modules
(`parser/xml_parser.py`, `analytics/metrics.py`) of the
Apple-Watch-Running-Health repository, together with theorems settling the
specification claims about them.

Conventions of the embedding:
* instants (timestamps) are rational numbers of seconds since an arbitrary
  epoch;
* the workout `duration` field carries the value stored in the data frame,
  which is in **minutes** (`_cleanup_workouts` computes missing durations as
  `total_seconds() / 60.0`, and `pace_min_km = duration / totalDistance`);
* a pandas `NaN` in an optional column is modelled as `Option.none`;
* numeric values are rationals (the claims under study are about control
  flow and exact arithmetic identities, not float rounding).
-/

/-- A workout row after `_cleanup_workouts`: start/end instants in seconds,
`duration` in minutes, `totalDistance` in km (`none` = NaN), and the
recording source name (`none` = missing). -/
structure Workout where
  startT : ℚ
  endT : ℚ
  duration : ℚ
  totalDistance : Option ℚ
  sourceName : Option String
deriving DecidableEq, Repr

/-! ## Workout deduplication (`process_running_workouts`, lines 148–181) -/

/-- Distance key used by `max(current_group, key=...)`:
`x['totalDistance'] if pd.notna(x['totalDistance']) else 0`. -/
def distKey (w : Workout) : ℚ := w.totalDistance.getD 0

/-- The grouping test of lines 165–168: the candidate `w` joins the open
group when its start differs from the last group member `prev` by less than
600 (seconds) and its stored duration differs by less than 600 (the stored
duration unit, which is minutes). -/
def joinsGroup (prev w : Workout) : Bool :=
  |w.startT - prev.startT| < 600 ∧ |w.duration - prev.duration| < 600

/-- Python's `max(group, key=distKey)` over the nonempty group `g0 :: grp`:
first maximal element wins (replacement only on strict improvement). -/
def bestOf (g0 : Workout) (grp : List Workout) : Workout :=
  grp.foldl (fun b x => if distKey b < distKey x then x else b) g0

/-- Last member of the nonempty open group `g0 :: grp`
(`current_group[-1]`). -/
def lastMem (g0 : Workout) : List Workout → Workout
  | [] => g0
  | x :: xs => lastMem x xs

/-- The deduplication walk of lines 156–180: the open group is
`g0 :: grp` (in arrival order); each remaining workout either joins the
group or closes it, in which case the group's maximal-distance member is
emitted. -/
def dedupLoop (g0 : Workout) (grp : List Workout) : List Workout → List Workout
  | [] => [bestOf g0 grp]
  | w :: rest =>
      if joinsGroup (lastMem g0 grp) w then dedupLoop g0 (grp ++ [w]) rest
      else bestOf g0 grp :: dedupLoop w [] rest

/-- Sort key of `running.sort_values(by=['startDate','totalDistance'],
ascending=[True, False])`: start ascending, then total distance descending
with NaN distances last. `wLE a b` says `a` may stay before `b`. -/
def wLE (a b : Workout) : Bool :=
  if a.startT = b.startT then
    match a.totalDistance, b.totalDistance with
    | some x, some y => x ≥ y
    | some _, none => true
    | none, some _ => false
    | none, none => true
  else a.startT < b.startT

/-- Insertion step of the sort. -/
def insertW (w : Workout) : List Workout → List Workout
  | [] => [w]
  | x :: xs => if wLE x w then x :: insertW w xs else w :: x :: xs

/-- Insertion sort realising the pandas sort key
(start ascending, distance descending, NaN last). -/
def sortWorkouts (l : List Workout) : List Workout := l.foldr insertW []

/-- The whole deduplication pass of `process_running_workouts`
(lines 148–181): sort, then walk collapsing near-duplicate groups. -/
def dedupWorkouts (l : List Workout) : List Workout :=
  match sortWorkouts l with
  | [] => []
  | w :: rest => dedupLoop w [] rest

/-! ## Efficiency factor (`calculate_efficiency_factor`, lines 39–46, and the
per-workout division of line 287)

Pandas float column semantics are modelled by `PVal`: a value is either a
missing sample (`NaN`), an infinity, or a finite rational. Rounding is not
modelled; the claims concern only the NaN/infinity behaviour of division. -/

/-- A pandas float cell: NaN (missing), ±infinity, or a finite number. -/
inductive PVal where
  | nan : PVal
  | inf : PVal
  | ninf : PVal
  | num : ℚ → PVal
deriving DecidableEq, Repr

/-- IEEE-style division as performed by a pandas/numpy float column divide:
NaN propagates; finite/0 gives NaN (0/0) or a signed infinity; an infinity
divided by a finite keeps (or flips) its sign; finite/infinity is 0;
infinity/infinity is NaN. -/
def PVal.div : PVal → PVal → PVal
  | .nan, _ => .nan
  | _, .nan => .nan
  | .num a, .num b =>
      if b = 0 then (if a = 0 then .nan else if 0 < a then .inf else .ninf)
      else .num (a / b)
  | .inf, .num b => if 0 ≤ b then .inf else .ninf
  | .ninf, .num b => if 0 ≤ b then .ninf else .inf
  | .num _, .inf => .num 0
  | .num _, .ninf => .num 0
  | .inf, .inf => .nan
  | .inf, .ninf => .nan
  | .ninf, .inf => .nan
  | .ninf, .ninf => .nan

/-- Line 287 of `process_running_workouts`:
`running['efficiency_factor'] = running['avg_power'] / running['avg_hr']`
— a bare column division with no infinity guard. -/
def workoutEfficiencyFactor (avgPower avgHr : PVal) : PVal :=
  PVal.div avgPower avgHr

/-- `calculate_efficiency_factor` (lines 39–46): divide, then
`ef.replace([np.inf, -np.inf], np.nan)`. -/
def calculate_efficiency_factor (avgPower avgHr : PVal) : PVal :=
  match PVal.div avgPower avgHr with
  | .inf => .nan
  | .ninf => .nan
  | v => v

/-! ## Acute:Chronic Workload Ratio (`calculate_acwr`, lines 9–22) -/

/-- The trailing window that `Series.rolling(window=win, min_periods=1)`
sees at index `i`: the last `min (i+1) win` entries among the first `i+1`. -/
def rollWindow (l : List ℚ) (win i : ℕ) : List ℚ :=
  (l.take (i + 1)).drop (i + 1 - win)

/-- `rolling(window=win, min_periods=1).sum()` at index `i`. -/
def rollingSum (l : List ℚ) (win i : ℕ) : ℚ :=
  (rollWindow l win i).sum

/-- `rolling(window=win, min_periods=1).mean()` at index `i`. -/
def rollingMean (l : List ℚ) (win i : ℕ) : ℚ :=
  (rollWindow l win i).sum / (rollWindow l win i).length

/-- `calculate_acwr` at day index `i`:
`acute_load / (chronic_load * acute_window)` with
`acute_load = rolling(acute_window).sum()` and
`chronic_load = rolling(chronic_window).mean()`. -/
def calculate_acwr (dailyWorkload : List ℚ) (acuteWindow chronicWindow i : ℕ) : ℚ :=
  rollingSum dailyWorkload acuteWindow i /
    (rollingMean dailyWorkload chronicWindow i * acuteWindow)

/-! ## Record normalization (`_cleanup_records`, lines 205–260) -/

/-- A raw attribute record row as consumed by `_cleanup_records` unit
normalization: its HealthKit type identifier, its unit string and its
(already numeric) value. -/
structure URecord where
  rtype : String
  unit : String
  value : ℚ
deriving DecidableEq, Repr

/-- The distance-kind type identifiers of lines 244–248. -/
def distanceTypes : List String :=
  ["HKQuantityTypeIdentifierDistanceWalkingRunning",
   "HKQuantityTypeIdentifierDistanceCycling",
   "HKQuantityTypeIdentifierDistanceSwimming"]

/-- Unit normalization of lines 249–258: for distance-kind records, unit
`"m"` divides the value by 1000 and relabels `"km"`; unit `"mi"` multiplies
by 1.60934 and relabels `"km"`; everything else is untouched. -/
def normalizeUnit (r : URecord) : URecord :=
  if r.rtype ∈ distanceTypes ∧ r.unit = "m" then
    { r with value := r.value / 1000, unit := "km" }
  else if r.rtype ∈ distanceTypes ∧ r.unit = "mi" then
    { r with value := r.value * (160934 / 100000), unit := "km" }
  else r

/-! ## Sleep value normalization (`_cleanup_records`, lines 219–240) -/

/-- The `sleep_map` of lines 221–231, verbatim. -/
def sleepMap : List (String × ℚ) :=
  [("HKCategoryValueSleepAnalysisInBed", 0),
   ("HKCategoryValueSleepAnalysisAsleep", 1),
   ("HKCategoryValueSleepAnalysisAwake", 2),
   ("HKCategoryValueSleepAnalysisAsleepCore", 3),
   ("HKCategoryValueSleepAnalysisAsleepDeep", 4),
   ("HKCategoryValueSleepAnalysisAsleepREM", 5),
   ("HKCategoryValueSleepAnalysisAsleepUnspecified", 1),
   ("InBed", 0), ("Asleep", 1), ("Awake", 2),
   ("Core", 3), ("Deep", 4), ("REM", 5)]

/-- Parses a list of decimal digit characters into a natural number;
`none` when empty or when a non-digit occurs. -/
def parseDigits (cs : List Char) : Option ℕ :=
  match cs with
  | [] => none
  | _ =>
    cs.foldl (fun acc c =>
      match acc with
      | none => none
      | some n => if c.isDigit then some (n * 10 + (c.toNat - 48)) else none)
      (some 0)

/-- Splits a character list at the `'.'` separators. -/
def splitDot : List Char → List (List Char)
  | [] => [[]]
  | c :: cs =>
      if c = '.' then [] :: splitDot cs
      else
        match splitDot cs with
        | [] => [[c]]
        | g :: gs => (c :: g) :: gs

/-- Model of `pd.to_numeric(s, errors='coerce')` on a plain decimal string
literal: optional sign, then digits with an optional fractional part
(at least one digit overall); anything else coerces to `none` (NaN).
Exponent notation, which never arises for sleep stage codes, is out of
scope of the model and also coerces to `none`. -/
def toNumeric (s : String) : Option ℚ :=
  let (neg, body) :=
    match s.data with
    | '-' :: rest => (true, rest)
    | '+' :: rest => (false, rest)
    | cs => (false, cs)
  let mag : Option ℚ :=
    match splitDot body with
    | [a] => (parseDigits a).map (fun n => (n : ℚ))
    | [a, b] =>
        if a = [] ∧ b = [] then none
        else
          match (if a = [] then some 0 else parseDigits a),
                (if b = [] then some 0 else parseDigits b) with
          | some ip, some fp => some ((ip : ℚ) + (fp : ℚ) / (10 : ℚ) ^ b.length)
          | _, _ => none
    | _ => none
  if neg then mag.map (fun q => -q) else mag

/-- Python `str.strip()`: drop whitespace from both ends. -/
def pyStrip (s : String) : String :=
  ⟨((s.data.dropWhile Char.isWhitespace).reverse.dropWhile Char.isWhitespace).reverse⟩

/-- Sleep value normalization of lines 232–240: strip surrounding
whitespace, map through `sleep_map`, then coerce to numeric
(`errors='coerce'`: an unmapped, non-numeric string becomes NaN). -/
def normalizeSleepValue (s : String) : Option ℚ :=
  let t := pyStrip s
  match sleepMap.lookup t with
  | some v => some v
  | none => toNumeric t

/-! ## Route (GPX) parsing (`_parse_gpx_stream`, lines 82–115, and the
route lookup of `parse_export_zip`, lines 64–78) -/

/-- A raw `<trkpt>` element as seen by `_parse_gpx_stream`:
latitude/longitude attributes (required), and the optional `ele` and
`time` child elements (`none` when the child is absent; a missing or
empty time string is `none`). -/
structure RawTrkpt where
  lat : ℚ
  lon : ℚ
  ele : Option ℚ
  time : Option ℚ
deriving DecidableEq, Repr

/-- A retained route point: elevation defaulted to 0 when absent, and a
mandatory instant. -/
structure GpxPoint where
  lat : ℚ
  lon : ℚ
  ele : ℚ
  time : ℚ
deriving DecidableEq, Repr

/-- Lines 104–113: a point is appended only when it has a timestamp;
a missing elevation becomes `0.0`. -/
def parseTrkpt (p : RawTrkpt) : Option GpxPoint :=
  match p.time with
  | some t => some ⟨p.lat, p.lon, p.ele.getD 0, t⟩
  | none => none

/-- `_parse_gpx_stream` over the track points of one route document. -/
def parseGpxPoints (l : List RawTrkpt) : List GpxPoint :=
  l.filterMap parseTrkpt

/-- The matching key of a parsed route: the instant of its first retained
point (`gpx_df['time'].iloc[0]`, line 75); `none` for an empty route. -/
def gpxKey (l : List RawTrkpt) : Option ℚ :=
  ((parseGpxPoints l).head?).map (·.time)

/-- A route in the lookup: the ordered retained points. -/
abbrev Route := List GpxPoint

/-- Python `dict` assignment `gpx_routes[start_time] = gpx_df` on an
insertion-ordered dictionary: an existing key keeps its position but its
value is replaced; a fresh key is appended. -/
def dictInsert (d : List (ℚ × Route)) (k : ℚ) (v : Route) : List (ℚ × Route) :=
  if d.any (fun e => e.1 = k) then
    d.map (fun e => if e.1 = k then (k, v) else e)
  else d ++ [(k, v)]

/-- The route-lookup construction of `parse_export_zip` lines 64–78:
parse each companion document in archive enumeration order; skip empty
results; key each non-empty route by its first point's instant. -/
def buildGpxRoutes (files : List (List RawTrkpt)) : List (ℚ × Route) :=
  files.foldl (fun acc f =>
    match parseGpxPoints f with
    | [] => acc
    | p :: ps => dictInsert acc p.time (p :: ps)) []

/-- The route-matching loop of `process_running_workouts` lines 222–226:
iterate the lookup in insertion order and take the first route whose key
lies within 120 seconds of the workout start. -/
def findGpxMatch (routes : List (ℚ × Route)) (wStart : ℚ) : Option (ℚ × Route) :=
  routes.find? (fun e => |e.1 - wStart| < 120)

/-! ## Geodesic distance (`_calculate_haversine_distance` /
`_calculate_point_distances`, lines 291–316) -/

/-- `np.arctan2 y x`. -/
noncomputable def arctan2 (y x : ℝ) : ℝ :=
  if 0 < x then Real.arctan (y / x)
  else if x < 0 then
    (if 0 ≤ y then Real.arctan (y / x) + Real.pi
     else Real.arctan (y / x) - Real.pi)
  else if 0 < y then Real.pi / 2
  else if y < 0 then -(Real.pi / 2)
  else 0

/-- Degrees to radians (`np.radians`). -/
noncomputable def radians (x : ℚ) : ℝ := (x : ℝ) * Real.pi / 180

/-- One consecutive-pair haversine distance in km (lines 304–315):
Earth radius 6371 km. -/
noncomputable def haversineStep (p q : GpxPoint) : ℝ :=
  let lat1 := radians p.lat
  let lat2 := radians q.lat
  let dlat := lat2 - lat1
  let dlon := radians q.lon - radians p.lon
  let a := Real.sin (dlat / 2) ^ 2 +
    Real.cos lat1 * Real.cos lat2 * Real.sin (dlon / 2) ^ 2
  6371 * (2 * arctan2 (Real.sqrt a) (Real.sqrt (1 - a)))

/-- Distances between consecutive points. -/
noncomputable def consecDists : List GpxPoint → List ℝ
  | p :: q :: rest => haversineStep p q :: consecDists (q :: rest)
  | _ => []

/-- `_calculate_point_distances`: all-zero for fewer than two points, else
a leading 0 followed by the consecutive-pair distances. -/
noncomputable def pointDistances (l : List GpxPoint) : List ℝ :=
  if l.length < 2 then List.replicate l.length 0
  else 0 :: consecDists l

/-- `_calculate_haversine_distance`: the route's total geodesic length. -/
noncomputable def haversineSum (l : List GpxPoint) : ℝ :=
  (pointDistances l).sum

/-! ## Source reconciliation (`process_running_workouts`, lines 183–274) -/

/-- An instrument record row as used by the reconciliation resolver:
type identifier, start/end instants (seconds), numeric value, source name.
(A record whose source attribute is absent carries a sentinel name that
simply matches no workout source.) -/
structure HRecord where
  rtype : String
  startT : ℚ
  endT : ℚ
  value : ℚ
  sourceName : String
deriving DecidableEq, Repr

/-- Overlap test of lines 201/208/258:
`record.start < workout.end AND record.end > workout.start`. -/
def overlapsWindow (r : HRecord) (w : Workout) : Bool :=
  r.startT < w.endT ∧ w.startT < r.endT

/-- Containment test of line 238:
`record.start >= workout.start AND record.end <= workout.end`. -/
def containedInWindow (r : HRecord) (w : Workout) : Bool :=
  w.startT ≤ r.startT ∧ r.endT ≤ w.endT

/-- `Series.mean()` guarded by the `if not empty else nan` of
lines 206/213. -/
def meanVals (l : List HRecord) : Option ℚ :=
  if l.isEmpty then none
  else some ((l.map (·.value)).sum / l.length)

/-- The heart-rate / power resolution of lines 199–213 for records of type
`tid`: take the overlapping records; when the workout has a (truthy) source
name and narrowing to that source leaves something, narrow; average, with
an empty selection yielding NaN. -/
def resolveAvg (records : List HRecord) (tid : String) (w : Workout) : Option ℚ :=
  let typed := records.filter (fun r => r.rtype = tid)
  let ov := typed.filter (fun r => overlapsWindow r w)
  let sel :=
    match w.sourceName with
    | some s =>
        if s ≠ "" ∧ ¬ ov.isEmpty ∧ ¬ (ov.filter (fun r => r.sourceName = s)).isEmpty
        then ov.filter (fun r => r.sourceName = s)
        else ov
    | none => ov
  meanVals sel

/-- `unique()` of a source column: sources in order of first appearance. -/
def uniqueSources (l : List HRecord) : List String :=
  l.foldl (fun acc r => if r.sourceName ∈ acc then acc else acc ++ [r.sourceName]) []

/-- Substring test (`'Watch' in str(s)`) on character lists. -/
def charsPrefix : List Char → List Char → Bool
  | [], _ => true
  | _ :: _, [] => false
  | a :: as, b :: bs => a = b && charsPrefix as bs

/-- Substring occurrence test. -/
def charsInfix (pat : List Char) : List Char → Bool
  | [] => charsPrefix pat []
  | c :: cs => charsPrefix pat (c :: cs) || charsInfix pat cs

/-- `pat in s` for strings. -/
def containsSub (s pat : String) : Bool := charsInfix pat.data s.data

/-- Number of records attributed to source `s`. -/
def countSource (l : List HRecord) (s : String) : ℕ :=
  (l.filter (fun r => r.sourceName = s)).length

/-- `value_counts().idxmax()`: among the sources in first-appearance order,
the one with the most records, earliest first on ties. -/
def mostCommonSource (l : List HRecord) : String :=
  match uniqueSources l with
  | [] => ""
  | s :: rest =>
      rest.foldl (fun b x => if countSource l b < countSource l x then x else b) s

/-- The single-source pick of lines 243–252 (and 260–267): the first
source whose name contains `"Watch"` or `"Apple"`, else the source with
the most records. -/
def bestSource (l : List HRecord) : String :=
  match (uniqueSources l).find?
      (fun s => containsSub s "Watch" || containsSub s "Apple") with
  | some s => s
  | none => mostCommonSource l

/-- Sum of the values of the records attributed to source `s`. -/
def sumSource (l : List HRecord) (s : String) : ℚ :=
  ((l.filter (fun r => r.sourceName = s)).map (·.value)).sum

/-- The record-based distance fallback (steps 3 and 4 of the chain,
lines 237–272): sum the single best source's strictly contained
distance records; only when there are none, repeat with the window
loosened to overlap; else NaN. -/
def distanceFromRecords (distRecs : List HRecord) (w : Workout) : Option ℚ :=
  let strict := distRecs.filter (fun r => containedInWindow r w)
  if ¬ strict.isEmpty then some (sumSource strict (bestSource strict))
  else
    let loose := distRecs.filter (fun r => overlapsWindow r w)
    if ¬ loose.isEmpty then some (sumSource loose (bestSource loose))
    else none

/-- The full distance resolution chain of lines 215–274: a matched route's
geodesic length first; otherwise the workout's own distance attribute when
present and nonzero (`pd.isna(w_dist_attr) or w_dist_attr == 0` sends it to
the record fallback); otherwise the record fallback. -/
noncomputable def resolveDistance (routes : List (ℚ × Route)) (w : Workout)
    (records : List HRecord) : Option ℝ :=
  let distRecs := records.filter
    (fun r => r.rtype = "HKQuantityTypeIdentifierDistanceWalkingRunning")
  match findGpxMatch routes w.startT with
  | some e => some (haversineSum e.2)
  | none =>
      if w.totalDistance.getD 0 = 0 then
        (distanceFromRecords distRecs w).map (fun q => (q : ℝ))
      else w.totalDistance.map (fun q => (q : ℝ))

/-! ## Claim theorems -/

/-- Two same-start workouts whose stored durations are 0 and 30 minutes. -/
def wDup5 : Workout := ⟨0, 1800, 0, some 5, none⟩

/-- The 30-minute-duration duplicate candidate with the larger distance. -/
def wDup7 : Workout := ⟨0, 3600, 30, some 7, none⟩

/-- First workout of the idempotence counterexample. -/
def wIdemA : Workout := ⟨0, 1800, 0, some 10, none⟩

/-- Second workout: duration 1000 closes the group opened by `wIdemA`. -/
def wIdemB : Workout := ⟨10, 1800, 1000, some 5, none⟩

/-- Third workout: within tolerance of `wIdemB` and also of `wIdemA`. -/
def wIdemC : Workout := ⟨20, 1800, 500, some 20, none⟩

/-- A heart-rate record from the watch, overlapping `wSrc`. -/
def hrWatch : HRecord := ⟨"HKQuantityTypeIdentifierHeartRate", 0, 10, 100, "Watch"⟩

/-- A heart-rate record from a second paired device. -/
def hrPhone : HRecord := ⟨"HKQuantityTypeIdentifierHeartRate", 0, 10, 80, "Phone"⟩

/-- A workout attributed to the "Watch" source. -/
def wSrc : Workout := ⟨0, 100, 30, none, some "Watch"⟩

/-- A one-point route whose key instant is 100. -/
def rteA : Route := [⟨7, 7, 0, 100⟩]

/-- A workout starting at 0 with a nonzero recorded distance attribute. -/
def wRoute : Workout := ⟨0, 1800, 30, some 3, none⟩

/-! ## Theorems -/

/-! ### Helper lemmas: every survivor of deduplication is an input workout -/

theorem bestOf_mem (g0 : Workout) (grp : List Workout) :
    bestOf g0 grp ∈ g0 :: grp := by
  induction grp generalizing g0 with
  | nil => simp [bestOf]
  | cons x xs ih =>
      have h1 : bestOf g0 (x :: xs) =
          bestOf (if distKey g0 < distKey x then x else g0) xs := rfl
      have h2 := ih (if distKey g0 < distKey x then x else g0)
      rw [h1]
      rcases List.mem_cons.1 h2 with h | h
      · rw [h]
        by_cases hc : distKey g0 < distKey x <;> simp [hc]
      · exact List.mem_cons_of_mem _ (List.mem_cons_of_mem _ h)

theorem dedupLoop_mem (g0 : Workout) (grp rest : List Workout) (x : Workout)
    (hx : x ∈ dedupLoop g0 grp rest) : x ∈ (g0 :: grp) ++ rest := by
  induction rest generalizing g0 grp with
  | nil =>
      simp only [dedupLoop, List.mem_singleton] at hx
      rw [hx]
      simpa using bestOf_mem g0 grp
  | cons w ws ih =>
      simp only [dedupLoop] at hx
      by_cases hc : joinsGroup (lastMem g0 grp) w = true
      · rw [if_pos hc] at hx
        have := ih g0 (grp ++ [w]) hx
        simp only [List.cons_append, List.mem_cons, List.mem_append,
          List.mem_singleton] at this ⊢
        tauto
      · rw [if_neg hc] at hx
        rcases List.mem_cons.1 hx with h | h
        · have := h ▸ bestOf_mem g0 grp
          simp only [List.cons_append, List.mem_cons, List.mem_append] at this ⊢
          tauto
        · have := ih w [] h
          simp only [List.cons_append, List.mem_cons, List.mem_append,
            List.not_mem_nil] at this ⊢
          tauto

theorem insertW_mem (w : Workout) (l : List Workout) (x : Workout) :
    x ∈ insertW w l ↔ x = w ∨ x ∈ l := by
  induction l with
  | nil => simp [insertW]
  | cons a as ih =>
      simp only [insertW]
      by_cases hc : wLE a w = true
      · rw [if_pos hc]
        simp only [List.mem_cons, ih]
        tauto
      · rw [if_neg hc]
        simp only [List.mem_cons]

theorem sortWorkouts_mem (l : List Workout) (x : Workout) :
    x ∈ sortWorkouts l ↔ x ∈ l := by
  induction l with
  | nil => simp [sortWorkouts]
  | cons a as ih =>
      simp only [sortWorkouts, List.foldr_cons] at ih ⊢
      rw [insertW_mem]
      simp only [List.mem_cons, ih]

/-- Every workout surviving deduplication was one of the input workouts. -/
theorem dedupWorkouts_mem (l : List Workout) (x : Workout)
    (hx : x ∈ dedupWorkouts l) : x ∈ l := by
  unfold dedupWorkouts at hx
  rcases hs : sortWorkouts l with _ | ⟨w, rest⟩
  · rw [hs] at hx
    simp at hx
  · rw [hs] at hx
    have := dedupLoop_mem w [] rest x hx
    have hmem : x ∈ sortWorkouts l := by
      rw [hs]
      simpa using this
    exact (sortWorkouts_mem l x).1 hmem

/-- C1: the deduplicator's duration tolerance is not 600 seconds. The two
workouts `wDup5`/`wDup7` start at the same instant but their stored
durations (which are minutes) differ by 30, i.e. by 1800 seconds — outside
the claimed 600-second tolerance, so per the claim the open group should
close and both should survive. The code compares the stored duration
values directly against 600 (`dur_diff < 600` with minute-valued
durations, a 10-hour tolerance, contradicting its own comment "durations
within 10m"), merges them into one group, and keeps only the
larger-distance workout. -/
theorem claim_C1_dedup_duration_units :
    dedupWorkouts [wDup5, wDup7] = [wDup7] ∧
    (wDup7.duration - wDup5.duration) * 60 = 1800 ∧ ¬ ((1800 : ℚ) < 600) := by
  refine ⟨?_, by norm_num [wDup5, wDup7], by norm_num⟩
  norm_num [dedupWorkouts, sortWorkouts, insertW, wLE, wDup5, wDup7, dedupLoop,
    joinsGroup, lastMem, bestOf, distKey]

/-- C3: at `avg_power = 100`, `avg_hr = 0` the per-workout efficiency
factor of line 287 (a bare pandas division) is `+∞`, not null — while the
repository's own dedicated `calculate_efficiency_factor` (lines 39–46),
which the workout path does not use, replaces infinities by NaN and so
never returns an infinity. -/
theorem claim_C3_efficiency_hr_zero :
    workoutEfficiencyFactor (PVal.num 100) (PVal.num 0) = PVal.inf ∧
    workoutEfficiencyFactor (PVal.num 100) (PVal.num 0) ≠ PVal.nan ∧
    (∀ p h : PVal, calculate_efficiency_factor p h ≠ PVal.inf ∧
      calculate_efficiency_factor p h ≠ PVal.ninf) ∧
    calculate_efficiency_factor (PVal.num 100) (PVal.num 0) = PVal.nan := by
  refine ⟨?_, ?_, ?_, ?_⟩
  · norm_num [workoutEfficiencyFactor, PVal.div]
  · norm_num [workoutEfficiencyFactor, PVal.div]
    decide
  · intro p h
    unfold calculate_efficiency_factor
    cases hd : PVal.div p h <;> simp
  · norm_num [calculate_efficiency_factor, PVal.div]

/-- C4 counterexample: deduplication is not idempotent. On
`[wIdemA, wIdemB, wIdemC]` the first pass yields `[wIdemA, wIdemC]`
(`wIdemB` closes the first group but loses its own group to the
larger-distance `wIdemC`); the second pass merges the two survivors —
`wIdemC` is within both tolerances of `wIdemA` — leaving `[wIdemC]`. -/
theorem claim_C4_counterexample :
    dedupWorkouts (dedupWorkouts [wIdemA, wIdemB, wIdemC]) ≠
      dedupWorkouts [wIdemA, wIdemB, wIdemC] := by
  have h1 : dedupWorkouts [wIdemA, wIdemB, wIdemC] = [wIdemA, wIdemC] := by
    norm_num [dedupWorkouts, sortWorkouts, insertW, wLE, wIdemA, wIdemB, wIdemC,
      dedupLoop, joinsGroup, lastMem, bestOf, distKey]
  have h2 : dedupWorkouts [wIdemA, wIdemC] = [wIdemC] := by
    norm_num [dedupWorkouts, sortWorkouts, insertW, wLE, wIdemA, wIdemC,
      dedupLoop, joinsGroup, lastMem, bestOf, distKey]
  rw [h1, h2]
  simp only [ne_eq, List.cons.injEq]
  intro h
  have := h.1
  simp [wIdemA, wIdemC] at this

/-- C4 (amended): a second application of deduplication returns only
workouts that already survived the first application (it can drop
survivors, but never adds or alters any); full idempotence fails. -/
theorem claim_C4_rededup_subset (l : List Workout) (x : Workout)
    (hx : x ∈ dedupWorkouts (dedupWorkouts l)) : x ∈ dedupWorkouts l :=
  dedupWorkouts_mem (dedupWorkouts l) x hx

/-- Witness for C4: on the counterexample input, the sole survivor of the
second pass indeed survived the first pass. -/
theorem claim_C4_rededup_subset_witness :
    wIdemC ∈ dedupWorkouts (dedupWorkouts [wIdemA, wIdemB, wIdemC]) ∧
    wIdemC ∈ dedupWorkouts [wIdemA, wIdemB, wIdemC] := by
  have hmem : wIdemC ∈ dedupWorkouts (dedupWorkouts [wIdemA, wIdemB, wIdemC]) := by
    norm_num [dedupWorkouts, sortWorkouts, insertW, wLE, wIdemA, wIdemB, wIdemC,
      dedupLoop, joinsGroup, lastMem, bestOf, distKey]
  exact ⟨hmem, claim_C4_rededup_subset [wIdemA, wIdemB, wIdemC] wIdemC hmem⟩

/-- C6: for every distance-kind record in one of the three original units,
normalization relabels the unit "km" and rescales the value as documented:
metres are divided by 1000, miles are multiplied by 1.60934, kilometres are
untouched; the record's type is preserved. -/
theorem claim_C6_distance_unit_normalization (r : URecord)
    (hd : r.rtype ∈ distanceTypes)
    (hu : r.unit = "m" ∨ r.unit = "mi" ∨ r.unit = "km") :
    (normalizeUnit r).unit = "km" ∧
    (r.unit = "m" → (normalizeUnit r).value = r.value / 1000) ∧
    (r.unit = "mi" → (normalizeUnit r).value = r.value * (160934 / 100000)) ∧
    (r.unit = "km" → normalizeUnit r = r) ∧
    (normalizeUnit r).rtype = r.rtype := by
  rcases hu with hu | hu | hu <;>
    simp [normalizeUnit, hd, hu]

/-- Witness for C6: a metre-denominated walking/running distance record is
relabeled "km" with its value divided by 1000. -/
theorem claim_C6_distance_unit_normalization_witness :
    (⟨"HKQuantityTypeIdentifierDistanceWalkingRunning", "m", 2500⟩ : URecord).rtype
        ∈ distanceTypes ∧
    ((normalizeUnit ⟨"HKQuantityTypeIdentifierDistanceWalkingRunning", "m", 2500⟩).unit
        = "km" ∧
      ((⟨"HKQuantityTypeIdentifierDistanceWalkingRunning", "m", 2500⟩ : URecord).unit = "m" →
        (normalizeUnit ⟨"HKQuantityTypeIdentifierDistanceWalkingRunning", "m", 2500⟩).value
          = (2500 : ℚ) / 1000)) := by
  refine ⟨by simp [distanceTypes], ?_⟩
  have h := claim_C6_distance_unit_normalization
    ⟨"HKQuantityTypeIdentifierDistanceWalkingRunning", "m", 2500⟩
    (by simp [distanceTypes]) (Or.inl rfl)
  exact ⟨h.1, h.2.1⟩

/-- C7: under a constant positive daily load `L` on every day, the
acute:chronic workload ratio at any day index `i ≥ 28` (both trailing
windows full) is exactly 1: the 7-day trailing sum is `7L`, the 28-day
trailing mean is `L`, and `7L / (L·7) = 1`. -/
theorem claim_C7_acwr_constant_load (L : ℚ) (n i : ℕ) (hL : 0 < L)
    (hi : 28 ≤ i) (hn : i < n) :
    calculate_acwr (List.replicate n L) 7 28 i = 1 := by
  have hwin : ∀ win : ℕ, win ≤ i + 1 →
      rollWindow (List.replicate n L) win i = List.replicate win L := by
    intro win hw
    unfold rollWindow
    rw [List.take_replicate, List.drop_replicate]
    congr 1
    omega
  have h7 := hwin 7 (by omega)
  have h28 := hwin 28 (by omega)
  unfold calculate_acwr rollingSum rollingMean
  rw [h7, h28, List.sum_replicate, List.sum_replicate, List.length_replicate]
  have hL' : L ≠ 0 := ne_of_gt hL
  simp only [nsmul_eq_mul]
  push_cast
  field_simp
  ring

/-- Witness for C7: thirty days of constant load 5, evaluated on day 28. -/
theorem claim_C7_acwr_constant_load_witness :
    (0 : ℚ) < 5 ∧ 28 ≤ 28 ∧ 28 < 30 ∧
    calculate_acwr (List.replicate 30 (5 : ℚ)) 7 28 28 = 1 :=
  ⟨by norm_num, le_refl 28, by norm_num,
    claim_C7_acwr_constant_load 5 30 28 (by norm_num) (le_refl 28) (by norm_num)⟩

/-- C8: every sleep value is stripped of surrounding whitespace and mapped
through the explicit stage table: all table entries (long-form,
short-form) produce codes in `[0, 5]`; the long-form `AsleepUnspecified`
string maps to 1 (Asleep), also when padded with whitespace; numeric
strings coerce to their value; a string that is neither in the table nor
numeric becomes null (NaN) rather than raising. -/
theorem claim_C8_sleep_value_mapping :
    (∀ p ∈ sleepMap, normalizeSleepValue p.1 = some p.2 ∧ 0 ≤ p.2 ∧ p.2 ≤ 5) ∧
    normalizeSleepValue "HKCategoryValueSleepAnalysisAsleepUnspecified" = some 1 ∧
    normalizeSleepValue "  HKCategoryValueSleepAnalysisAsleepUnspecified  " = some 1 ∧
    normalizeSleepValue "  Deep  " = some 4 ∧
    normalizeSleepValue "3" = some 3 ∧
    normalizeSleepValue "4.0" = some 4 ∧
    (∀ s : String, sleepMap.lookup (pyStrip s) = none →
      toNumeric (pyStrip s) = none → normalizeSleepValue s = none) ∧
    normalizeSleepValue "SomethingElse" = none := by
  refine ⟨?_, by decide, by decide, by decide, by decide, ?_, ?_, by decide⟩
  · intro p hp
    fin_cases hp <;> exact ⟨by decide, by norm_num, by norm_num⟩
  · have h : normalizeSleepValue "4.0" =
        some (((4 : ℕ) : ℚ) + ((0 : ℕ) : ℚ) / (10 : ℚ) ^ (['0'] : List Char).length) := rfl
    rw [h]
    norm_num
  · intro s hlook hnum
    unfold normalizeSleepValue
    simp only [hlook, hnum]

/-- C9: a track point whose elevation child is absent is retained with
elevation 0 (provided it has a timestamp); a point lacking a timestamp is
skipped and contributes nothing to the parsed route; consequently the
route's key instant is the instant of the first point that has a
timestamp. -/
theorem claim_C9_gpx_point_handling :
    (∀ (p : RawTrkpt) (t : ℚ), p.ele = none → p.time = some t →
      parseTrkpt p = some ⟨p.lat, p.lon, 0, t⟩) ∧
    (∀ (a b : List RawTrkpt) (p : RawTrkpt), p.time = none →
      parseGpxPoints (a ++ p :: b) = parseGpxPoints (a ++ b)) ∧
    (∀ pts : List RawTrkpt,
      gpxKey pts = (pts.find? (fun p => p.time.isSome)).bind (fun p => p.time)) := by
  refine ⟨?_, ?_, ?_⟩
  · intro p t he ht
    simp [parseTrkpt, ht, he]
  · intro a b p hp
    simp [parseGpxPoints, List.filterMap_append, List.filterMap_cons, parseTrkpt, hp]
  · intro pts
    induction pts with
    | nil => simp [gpxKey, parseGpxPoints]
    | cons q qs ih =>
        cases hq : q.time with
        | some t =>
            simp [gpxKey, parseGpxPoints, List.filterMap_cons, parseTrkpt, hq,
              List.find?_cons_of_pos]
        | none =>
            simpa [gpxKey, parseGpxPoints, List.filterMap_cons, parseTrkpt, hq,
              List.find?_cons_of_neg] using ih

/-- Witness for C9: a point without elevation is kept with elevation 0; a
point without a timestamp drops out of the parsed route. -/
theorem claim_C9_gpx_point_handling_witness :
    ((⟨1, 2, none, some 50⟩ : RawTrkpt).ele = none ∧
      (⟨1, 2, none, some 50⟩ : RawTrkpt).time = some 50 ∧
      parseTrkpt ⟨1, 2, none, some 50⟩ = some ⟨1, 2, 0, 50⟩) ∧
    ((⟨3, 4, some 7, none⟩ : RawTrkpt).time = none ∧
      parseGpxPoints ([] ++ (⟨3, 4, some 7, none⟩ : RawTrkpt) :: [⟨1, 2, none, some 50⟩]) =
        parseGpxPoints ([] ++ [⟨1, 2, none, some 50⟩])) :=
  ⟨⟨rfl, rfl, claim_C9_gpx_point_handling.1 ⟨1, 2, none, some 50⟩ 50 rfl rfl⟩,
    ⟨rfl, claim_C9_gpx_point_handling.2.1 [] [⟨1, 2, none, some 50⟩]
      ⟨3, 4, some 7, none⟩ rfl⟩⟩

/-- `List.find?` returns the first satisfying element: everything before
it in the list fails the predicate. -/
theorem find?_first_spec {α : Type} (p : α → Bool) (l : List α) (e : α)
    (h : l.find? p = some e) :
    ∃ pre post, l = pre ++ e :: post ∧ p e = true ∧ ∀ x ∈ pre, p x = false := by
  induction l with
  | nil => simp [List.find?] at h
  | cons a as ih =>
      by_cases ha : p a
      · rw [List.find?_cons_of_pos _ ha] at h
        obtain rfl := Option.some.inj h
        exact ⟨[], as, rfl, ha, by simp⟩
      · rw [List.find?_cons_of_neg _ (by simpa using ha)] at h
        obtain ⟨pre, post, hl, hpe, hpre⟩ := ih h
        refine ⟨a :: pre, post, by rw [hl, List.cons_append], hpe, ?_⟩
        intro x hx
        rcases List.mem_cons.1 hx with rfl | hx
        · simpa using ha
        · exact hpre x hx

/-- Re-assigning an existing key of the insertion-ordered dictionary
replaces its value (keeping its position); the result is as if only the
later assignment had happened. -/
theorem dictInsert_replace (d : List (ℚ × Route)) (k : ℚ) (v₁ v₂ : Route) :
    dictInsert (dictInsert d k v₁) k v₂ = dictInsert d k v₂ := by
  by_cases h : d.any (fun e => e.1 = k) = true
  · have h1 : dictInsert d k v₁ = d.map (fun e => if e.1 = k then (k, v₁) else e) := by
      unfold dictInsert
      rw [if_pos h]
    have h2 : (d.map (fun e => if e.1 = k then (k, v₁) else e)).any
        (fun e => e.1 = k) = true := by
      rw [List.any_eq_true] at h ⊢
      obtain ⟨x, hx, hxk⟩ := h
      have hxe : (if x.1 = k then (k, v₁) else x) = (k, v₁) := by
        simp [of_decide_eq_true hxk]
      exact ⟨(k, v₁), List.mem_map.2 ⟨x, hx, hxe⟩, by simp⟩
    have hL : dictInsert (dictInsert d k v₁) k v₂ =
        (d.map (fun e => if e.1 = k then (k, v₁) else e)).map
          (fun e => if e.1 = k then (k, v₂) else e) := by
      rw [h1]
      unfold dictInsert
      rw [if_pos h2]
    have hR : dictInsert d k v₂ = d.map (fun e => if e.1 = k then (k, v₂) else e) := by
      unfold dictInsert
      rw [if_pos h]
    rw [hL, hR, List.map_map]
    apply List.map_congr_left
    intro e _
    by_cases hek : e.1 = k <;> simp [Function.comp, hek]
  · have h1 : dictInsert d k v₁ = d ++ [(k, v₁)] := by
      unfold dictInsert
      rw [if_neg h]
    have h2 : (d ++ [(k, v₁)]).any (fun e => e.1 = k) = true := by
      simp
    have h4 : ∀ e ∈ d, ¬ e.1 = k := by
      intro e he hek
      exact h (List.any_eq_true.2 ⟨e, he, by simp [hek]⟩)
    have hL : dictInsert (dictInsert d k v₁) k v₂ =
        (d ++ [(k, v₁)]).map (fun e => if e.1 = k then (k, v₂) else e) := by
      rw [h1]
      unfold dictInsert
      rw [if_pos h2]
    have hR : dictInsert d k v₂ = d ++ [(k, v₂)] := by
      unfold dictInsert
      rw [if_neg h]
    rw [hL, hR, List.map_append]
    have h3 : d.map (fun e => if e.1 = k then (k, v₂) else e) = d := by
      conv_rhs => rw [show d = d.map id from by simp]
      apply List.map_congr_left
      intro e he
      simp [h4 e he]
    rw [h3]
    simp

/-- C10: route matching and route-lookup collisions. (i) The resolver's
route scan returns the first entry, in insertion order, whose key is
within 120 seconds of the workout start — every earlier entry fails the
tolerance. (ii) Concretely, with entries keyed 100 and 10 and workout
start 0, the entry keyed 100 is chosen although the one keyed 10 is
temporally nearer. (iii) Assigning the same first-point instant twice in
the lookup replaces the earlier route with the later one. (iv)
Concretely, two route documents whose first retained points share
instant 5 collapse to a single lookup entry holding the later route. -/
theorem claim_C10_route_lookup_order :
    (∀ (routes : List (ℚ × Route)) (ws : ℚ) (e : ℚ × Route),
      findGpxMatch routes ws = some e →
      ∃ pre post, routes = pre ++ e :: post ∧ |e.1 - ws| < 120 ∧
        ∀ x ∈ pre, ¬ (|x.1 - ws| < 120)) ∧
    (findGpxMatch [((100 : ℚ), ([⟨0, 0, 0, 100⟩] : Route)), (10, [⟨1, 1, 0, 10⟩])] 0 =
        some (100, [⟨0, 0, 0, 100⟩]) ∧
      |(10 : ℚ) - 0| < |(100 : ℚ) - 0|) ∧
    (∀ (d : List (ℚ × Route)) (k : ℚ) (v₁ v₂ : Route),
      dictInsert (dictInsert d k v₁) k v₂ = dictInsert d k v₂) ∧
    buildGpxRoutes [[⟨0, 0, some 1, some 5⟩], [⟨2, 2, none, some 5⟩]] =
      [(5, [⟨2, 2, 0, 5⟩])] := by
  refine ⟨?_, ⟨?_, by norm_num⟩, dictInsert_replace, ?_⟩
  · intro routes ws e h
    obtain ⟨pre, post, hl, hpe, hpre⟩ := find?_first_spec _ routes e h
    refine ⟨pre, post, hl, by simpa using hpe, ?_⟩
    intro x hx
    simpa using hpre x hx
  · unfold findGpxMatch
    apply List.find?_cons_of_pos
    norm_num
  · norm_num [buildGpxRoutes, parseGpxPoints, List.filterMap_cons, parseTrkpt,
      dictInsert, List.any]

/-- Witness for C10: the first-match clause applied to a one-entry lookup. -/
theorem claim_C10_route_lookup_order_witness :
    findGpxMatch [((100 : ℚ), ([⟨0, 0, 0, 100⟩] : Route))] 99 =
        some (100, [⟨0, 0, 0, 100⟩]) ∧
    ∃ pre post,
      [((100 : ℚ), ([⟨0, 0, 0, 100⟩] : Route))] =
          pre ++ ((100 : ℚ), ([⟨0, 0, 0, 100⟩] : Route)) :: post ∧
        |((100 : ℚ), ([⟨0, 0, 0, 100⟩] : Route)).1 - 99| < 120 ∧
        ∀ x ∈ pre, ¬ (|x.1 - (99 : ℚ)| < 120) := by
  have hfind : findGpxMatch [((100 : ℚ), ([⟨0, 0, 0, 100⟩] : Route))] 99 =
      some (100, [⟨0, 0, 0, 100⟩]) := by
    unfold findGpxMatch
    apply List.find?_cons_of_pos
    norm_num
  exact ⟨hfind, claim_C10_route_lookup_order.1 _ 99 _ hfind⟩

/-- The resolver's nested filters (type, then overlap, then source) equal
one combined filter over the raw record list. -/
theorem filter_type_overlap_source (records : List HRecord) (tid : String)
    (w : Workout) (s : String) :
    ((records.filter (fun r => r.rtype = tid)).filter
        (fun r => overlapsWindow r w)).filter (fun r => r.sourceName = s) =
      records.filter
        (fun r => r.rtype = tid ∧ overlapsWindow r w = true ∧ r.sourceName = s) := by
  rw [List.filter_filter, List.filter_filter]
  apply List.filter_congr
  intro r _
  by_cases h1 : r.rtype = tid <;> by_cases h2 : overlapsWindow r w = true <;>
    by_cases h3 : r.sourceName = s <;> simp [h1, h2, h3]

/-- The resolver's nested filters (type, then overlap) equal one combined
filter over the raw record list. -/
theorem filter_type_overlap (records : List HRecord) (tid : String) (w : Workout) :
    (records.filter (fun r => r.rtype = tid)).filter (fun r => overlapsWindow r w) =
      records.filter (fun r => r.rtype = tid ∧ overlapsWindow r w = true) := by
  rw [List.filter_filter]
  apply List.filter_congr
  intro r _
  by_cases h1 : r.rtype = tid <;> by_cases h2 : overlapsWindow r w = true <;>
    simp [h1, h2]

/-- C5: heart-rate / power resolution. (a) When no record of the metric's
type overlaps the workout window, the resolved value is null. (b) When the
workout has a (nonempty) named source and at least one overlapping record
of that type carries the same source, the selection narrows to exactly the
same-source overlapping records and the result is their mean. (c) When no
overlapping record shares the workout's named source (or there is no
usable source name), all overlapping records of the type are selected and
averaged; `meanVals` returns null exactly on an empty selection. -/
theorem claim_C5_hr_power_resolution (records : List HRecord) (w : Workout)
    (tid : String)
    (ht : tid = "HKQuantityTypeIdentifierHeartRate" ∨
      tid = "HKQuantityTypeIdentifierRunningPower") :
    ((∀ r ∈ records, r.rtype = tid → ¬ (overlapsWindow r w = true)) →
      resolveAvg records tid w = none) ∧
    (∀ s : String, w.sourceName = some s → s ≠ "" →
      (∃ r ∈ records, r.rtype = tid ∧ overlapsWindow r w = true ∧ r.sourceName = s) →
      resolveAvg records tid w =
        meanVals (records.filter
          (fun r => r.rtype = tid ∧ overlapsWindow r w = true ∧ r.sourceName = s))) ∧
    ((∀ s : String, w.sourceName = some s → s ≠ "" →
        ∀ r ∈ records, ¬ (r.rtype = tid ∧ overlapsWindow r w = true ∧ r.sourceName = s)) →
      resolveAvg records tid w =
        meanVals (records.filter (fun r => r.rtype = tid ∧ overlapsWindow r w = true))) := by
  refine ⟨?_, ?_, ?_⟩
  · intro hempty
    have hov : (records.filter (fun r => r.rtype = tid)).filter
        (fun r => overlapsWindow r w) = [] := by
      rw [filter_type_overlap, List.filter_eq_nil_iff]
      intro r hr
      simp only [decide_eq_true_eq, not_and]
      intro h1
      exact hempty r hr h1
    unfold resolveAvg
    simp only [hov]
    cases w.sourceName with
    | none => simp [meanVals]
    | some s => simp [meanVals, List.filter_nil]
  · intro s hs hne ⟨r, hr, hrt, hrov, hrs⟩
    have hmem : r ∈ records.filter
        (fun r => r.rtype = tid ∧ overlapsWindow r w = true ∧ r.sourceName = s) := by
      rw [List.mem_filter]
      exact ⟨hr, by simp [hrt, hrov, hrs]⟩
    have hsub : ¬ (((records.filter (fun r => r.rtype = tid)).filter
        (fun r => overlapsWindow r w)).filter (fun r => r.sourceName = s)).isEmpty = true := by
      rw [filter_type_overlap_source, List.isEmpty_iff]
      intro hnil
      rw [hnil] at hmem
      exact List.not_mem_nil r hmem
    have hov : ¬ ((records.filter (fun r => r.rtype = tid)).filter
        (fun r => overlapsWindow r w)).isEmpty = true := by
      have hmem2 : r ∈ (records.filter (fun r => r.rtype = tid)).filter
          (fun r => overlapsWindow r w) := by
        rw [filter_type_overlap, List.mem_filter]
        exact ⟨hr, by simp [hrt, hrov]⟩
      rw [List.isEmpty_iff]
      intro hnil
      rw [hnil] at hmem2
      exact List.not_mem_nil r hmem2
    unfold resolveAvg
    simp only [hs]
    rw [if_pos ⟨hne, hov, hsub⟩, filter_type_overlap_source]
  · intro hno
    unfold resolveAvg
    cases hsn : w.sourceName with
    | none =>
        simp only [hsn]
        rw [filter_type_overlap]
    | some s =>
        by_cases hne : s = ""
        · simp only [hsn]
          rw [if_neg (by simp [hne]), filter_type_overlap]
        · have hsub : (((records.filter (fun r => r.rtype = tid)).filter
              (fun r => overlapsWindow r w)).filter (fun r => r.sourceName = s)).isEmpty
                = true := by
            rw [filter_type_overlap_source]
            have hn : records.filter
                (fun r => r.rtype = tid ∧ overlapsWindow r w = true ∧ r.sourceName = s)
                  = [] := by
              rw [List.filter_eq_nil_iff]
              intro r hr
              simpa using hno s hsn hne r hr
            rw [hn]
            rfl
          simp only [hsn]
          rw [if_neg (fun hc => hc.2.2 hsub), filter_type_overlap]

/-- Witness for C8: the table clause at the `InBed` entry and the
unrecognized clause at a garbage string. -/
theorem claim_C8_sleep_value_mapping_witness :
    (("InBed", (0 : ℚ)) ∈ sleepMap ∧
      normalizeSleepValue "InBed" = some 0 ∧ (0 : ℚ) ≤ 0 ∧ (0 : ℚ) ≤ 5) ∧
    (sleepMap.lookup (pyStrip "garbage") = none ∧
      toNumeric (pyStrip "garbage") = none ∧
      normalizeSleepValue "garbage" = none) := by
  constructor
  · have h := claim_C8_sleep_value_mapping.1 ("InBed", (0 : ℚ)) (by decide)
    exact ⟨by decide, h.1, h.2.1, h.2.2⟩
  · exact ⟨by decide, by decide,
      (claim_C8_sleep_value_mapping.2.2.2.2.2.2.1) "garbage" (by decide) (by decide)⟩

/-- Witness for C5: the narrowing clause on a two-device record set — the
workout's named source "Watch" matches one overlapping record, so only the
same-source records are averaged. -/
theorem claim_C5_hr_power_resolution_witness :
    (wSrc.sourceName = some "Watch" ∧ "Watch" ≠ "" ∧
      (∃ r ∈ [hrWatch, hrPhone], r.rtype = "HKQuantityTypeIdentifierHeartRate" ∧
        overlapsWindow r wSrc = true ∧ r.sourceName = "Watch")) ∧
    resolveAvg [hrWatch, hrPhone] "HKQuantityTypeIdentifierHeartRate" wSrc =
      meanVals ([hrWatch, hrPhone].filter
        (fun r => r.rtype = "HKQuantityTypeIdentifierHeartRate" ∧
          overlapsWindow r wSrc = true ∧ r.sourceName = "Watch")) := by
  refine ⟨⟨rfl, by decide, ⟨hrWatch, by decide, by decide⟩⟩, ?_⟩
  exact (claim_C5_hr_power_resolution [hrWatch, hrPhone] wSrc
      "HKQuantityTypeIdentifierHeartRate" (Or.inl rfl)).2.1 "Watch" rfl
    (by decide) ⟨hrWatch, by decide, by decide⟩

/-- The resolver's nested filters (type, then containment) equal one
combined filter over the raw record list. -/
theorem filter_type_contained (records : List HRecord) (tid : String) (w : Workout) :
    (records.filter (fun r => r.rtype = tid)).filter (fun r => containedInWindow r w) =
      records.filter (fun r => r.rtype = tid ∧ containedInWindow r w = true) := by
  rw [List.filter_filter]
  apply List.filter_congr
  intro r _
  by_cases h1 : r.rtype = tid <;> by_cases h2 : containedInWindow r w = true <;>
    simp [h1, h2]

/-- C2: the distance resolution chain, in strict priority order. (1) When
some route's key instant is within 120 s of the workout start, the
resolved distance is the geodesic route length of a matching route —
regardless of the workout's own distance attribute. (2) With no matching
route, a present nonzero distance attribute is used as-is. (3) With no
route and a null/zero attribute, the strictly contained distance records
are summed over the picked single source. (4) Only when there are none,
the overlap-window records are used the same way. (5) Otherwise the
distance is null. -/
theorem claim_C2_distance_priority (routes : List (ℚ × Route)) (w : Workout)
    (records : List HRecord) :
    ((∃ e ∈ routes, |e.1 - w.startT| < 120) →
      ∃ e ∈ routes, |e.1 - w.startT| < 120 ∧
        resolveDistance routes w records = some (haversineSum e.2)) ∧
    ((∀ e ∈ routes, ¬ (|e.1 - w.startT| < 120)) →
      ∀ d : ℚ, w.totalDistance = some d → d ≠ 0 →
        resolveDistance routes w records = some ((d : ℝ))) ∧
    ((∀ e ∈ routes, ¬ (|e.1 - w.startT| < 120)) → w.totalDistance.getD 0 = 0 →
      (∃ r ∈ records, r.rtype = "HKQuantityTypeIdentifierDistanceWalkingRunning" ∧
        containedInWindow r w = true) →
      resolveDistance routes w records =
        some ((sumSource
          (records.filter (fun r =>
            r.rtype = "HKQuantityTypeIdentifierDistanceWalkingRunning" ∧
              containedInWindow r w = true))
          (bestSource (records.filter (fun r =>
            r.rtype = "HKQuantityTypeIdentifierDistanceWalkingRunning" ∧
              containedInWindow r w = true))) : ℚ) : ℝ)) ∧
    ((∀ e ∈ routes, ¬ (|e.1 - w.startT| < 120)) → w.totalDistance.getD 0 = 0 →
      (∀ r ∈ records, ¬ (r.rtype = "HKQuantityTypeIdentifierDistanceWalkingRunning" ∧
        containedInWindow r w = true)) →
      (∃ r ∈ records, r.rtype = "HKQuantityTypeIdentifierDistanceWalkingRunning" ∧
        overlapsWindow r w = true) →
      resolveDistance routes w records =
        some ((sumSource
          (records.filter (fun r =>
            r.rtype = "HKQuantityTypeIdentifierDistanceWalkingRunning" ∧
              overlapsWindow r w = true))
          (bestSource (records.filter (fun r =>
            r.rtype = "HKQuantityTypeIdentifierDistanceWalkingRunning" ∧
              overlapsWindow r w = true))) : ℚ) : ℝ)) ∧
    ((∀ e ∈ routes, ¬ (|e.1 - w.startT| < 120)) → w.totalDistance.getD 0 = 0 →
      (∀ r ∈ records, ¬ (r.rtype = "HKQuantityTypeIdentifierDistanceWalkingRunning" ∧
        containedInWindow r w = true)) →
      (∀ r ∈ records, ¬ (r.rtype = "HKQuantityTypeIdentifierDistanceWalkingRunning" ∧
        overlapsWindow r w = true)) →
      resolveDistance routes w records = none) := by
  refine ⟨?_, ?_, ?_, ?_, ?_⟩
  · intro hex
    rcases hf : findGpxMatch routes w.startT with _ | e
    · exfalso
      unfold findGpxMatch at hf
      rw [List.find?_eq_none] at hf
      obtain ⟨e, he, hel⟩ := hex
      exact (hf e he) (by simpa using hel)
    · have hmem : e ∈ routes := by
        unfold findGpxMatch at hf
        exact List.mem_of_find?_eq_some hf
      have htol : |e.1 - w.startT| < 120 := by
        unfold findGpxMatch at hf
        simpa using List.find?_some hf
      refine ⟨e, hmem, htol, ?_⟩
      unfold resolveDistance
      simp only [hf]
  · intro hno d hd hdne
    have hf : findGpxMatch routes w.startT = none := by
      unfold findGpxMatch
      rw [List.find?_eq_none]
      intro x hx
      simpa using hno x hx
    unfold resolveDistance
    simp only [hf, hd]
    rw [if_neg (by simpa [hd] using hdne)]
    rfl
  · intro hno h0 hex
    have hf : findGpxMatch routes w.startT = none := by
      unfold findGpxMatch
      rw [List.find?_eq_none]
      intro x hx
      simpa using hno x hx
    have hstrict : ¬ ((records.filter (fun r =>
        r.rtype = "HKQuantityTypeIdentifierDistanceWalkingRunning")).filter
          (fun r => containedInWindow r w)).isEmpty = true := by
      obtain ⟨r, hr, hrt, hrc⟩ := hex
      rw [filter_type_contained, List.isEmpty_iff]
      intro hnil
      have hrmem : r ∈ records.filter (fun r =>
          r.rtype = "HKQuantityTypeIdentifierDistanceWalkingRunning" ∧
            containedInWindow r w = true) := by
        rw [List.mem_filter]
        exact ⟨hr, by simp [hrt, hrc]⟩
      rw [hnil] at hrmem
      exact List.not_mem_nil r hrmem
    unfold resolveDistance
    simp only [hf]
    rw [if_pos h0]
    unfold distanceFromRecords
    rw [if_pos hstrict, filter_type_contained]
    rfl
  · intro hno h0 hnostrict hex
    have hf : findGpxMatch routes w.startT = none := by
      unfold findGpxMatch
      rw [List.find?_eq_none]
      intro x hx
      simpa using hno x hx
    have hstrict : ((records.filter (fun r =>
        r.rtype = "HKQuantityTypeIdentifierDistanceWalkingRunning")).filter
          (fun r => containedInWindow r w)).isEmpty = true := by
      rw [filter_type_contained, List.isEmpty_iff, List.filter_eq_nil_iff]
      intro r hr
      simpa using hnostrict r hr
    have hloose : ¬ ((records.filter (fun r =>
        r.rtype = "HKQuantityTypeIdentifierDistanceWalkingRunning")).filter
          (fun r => overlapsWindow r w)).isEmpty = true := by
      obtain ⟨r, hr, hrt, hrc⟩ := hex
      rw [filter_type_overlap, List.isEmpty_iff]
      intro hnil
      have hrmem : r ∈ records.filter (fun r =>
          r.rtype = "HKQuantityTypeIdentifierDistanceWalkingRunning" ∧
            overlapsWindow r w = true) := by
        rw [List.mem_filter]
        exact ⟨hr, by simp [hrt, hrc]⟩
      rw [hnil] at hrmem
      exact List.not_mem_nil r hrmem
    unfold resolveDistance
    simp only [hf]
    rw [if_pos h0]
    unfold distanceFromRecords
    rw [if_neg (by simpa using hstrict), if_pos hloose, filter_type_overlap]
    rfl
  · intro hno h0 hnostrict hnoloose
    have hf : findGpxMatch routes w.startT = none := by
      unfold findGpxMatch
      rw [List.find?_eq_none]
      intro x hx
      simpa using hno x hx
    have hstrict : ((records.filter (fun r =>
        r.rtype = "HKQuantityTypeIdentifierDistanceWalkingRunning")).filter
          (fun r => containedInWindow r w)).isEmpty = true := by
      rw [filter_type_contained, List.isEmpty_iff, List.filter_eq_nil_iff]
      intro r hr
      simpa using hnostrict r hr
    have hloose : ((records.filter (fun r =>
        r.rtype = "HKQuantityTypeIdentifierDistanceWalkingRunning")).filter
          (fun r => overlapsWindow r w)).isEmpty = true := by
      rw [filter_type_overlap, List.isEmpty_iff, List.filter_eq_nil_iff]
      intro r hr
      simpa using hnoloose r hr
    unfold resolveDistance
    simp only [hf]
    rw [if_pos h0]
    unfold distanceFromRecords
    rw [if_neg (by simpa using hstrict), if_neg (by simpa using hloose)]
    rfl

/-- Witness for C2: the route branch fires for a workout that also carries
the nonzero distance attribute 3 — the resolved distance is the route's
geodesic length, not the attribute. -/
theorem claim_C2_distance_priority_witness :
    (∃ e ∈ [((100 : ℚ), rteA)], |e.1 - wRoute.startT| < 120) ∧
    (∃ e ∈ [((100 : ℚ), rteA)], |e.1 - wRoute.startT| < 120 ∧
      resolveDistance [((100 : ℚ), rteA)] wRoute [] = some (haversineSum e.2)) ∧
    wRoute.totalDistance = some 3 := by
  have hex : ∃ e ∈ [((100 : ℚ), rteA)], |e.1 - wRoute.startT| < 120 :=
    ⟨(100, rteA), by simp, by norm_num [wRoute]⟩
  exact ⟨hex, (claim_C2_distance_priority [((100 : ℚ), rteA)] wRoute []).1 hex, rfl⟩
